import Mathlib

/-!
Shallow embedding of the `WebGLRenderer` core (texture-slot binding, object
renderer dispatch, render entry point, context loss/restore) of this
repository, together with theorems checking the natural-language
specification against it.

Modelling conventions:
* JavaScript object identity is modelled by natural-number ids; the
  renderer state carries a store `textures : Nat → BaseTexture` mapping ids
  to texture records.
* Driver-level WebGL calls (`gl.activeTexture`, `gl.bindTexture`) are
  recorded in a trace of `GLOp` values; renderer lifecycle calls
  (`emit`, `start`, `stop`, …) are recorded in a trace of `Ev` values.
* JavaScript runtime errors (property access on `undefined`) are modelled
  by an `Option` result: `none` means the call throws.
* Slot indices exercised by the source are always within the slot table;
  out-of-range writes (which would grow a JavaScript array) are modelled by
  `List.set`, which is the identity out of range.
-/

namespace Pixi

/-- One engine-level base texture: GC stamp, the per-context-generation map
from context uid to the GPU texture handle (`_glTextures`), and whether the
object carries a `_newTexture` field. -/
structure BaseTexture where
  touched : Nat
  glTextures : Nat → Option Nat
  isNew : Bool

/-- A texture argument as passed to `bindTexture`/`unbindTexture`: either a
`Texture` wrapper carrying a `baseTexture` reference, or a bare base
texture (no `baseTexture` field). -/
structure TexRef where
  id : Nat
  baseTexture : Option Nat
deriving DecidableEq, Repr

/-- The resolution `texture = texture.baseTexture || texture`. -/
def TexRef.resolved (t : TexRef) : Nat :=
  t.baseTexture.getD t.id

/-- Driver-level WebGL calls issued by the renderer.  `bindTex` is
annotated with the id of the logical texture being bound in addition to the
GPU handle, so traces can be queried per logical texture. -/
inductive GLOp where
  | activeTexture (unit : Nat)
  | bindTex (tex : Nat) (handle : Nat)
deriving DecidableEq, Repr

/-- Renderer lifecycle events observable by collaborators. -/
inductive Ev where
  | prerender
  | postrender
  | updateTransform
  | renderTextureBind
  | rendererStart (r : Nat)
  | rendererStop (r : Nat)
  | setState (s : Nat)
  | clearTarget
  | renderObject
  | rendererFlush (r : Nat)
  | gcUpdate
  | glFlush
deriving DecidableEq, Repr

/-- The mutable state of a `WebGLRenderer` instance, restricted to the
fields the claims are about. -/
structure WebGLRenderer where
  boundTextures : List Nat
  emptyTextures : List Nat
  nextTextureLocation : Nat
  contextUID : Nat
  textures : Nat → BaseTexture
  gcCount : Nat
  nextGlHandle : Nat
  nextTextureId : Nat
  managedTextures : List Nat
  currentRenderer : Nat
  emptyRenderer : Nat
  rendererStates : Nat → Nat
  stateManagerState : Nat
  glPresent : Bool
  contextLost : Bool
  loseContextExt : Bool
  maxTextureUnits : Nat
  renderingToScreen : Bool
  lastObjectRendered : Option Nat
  clearBeforeRender : Bool

/-- The scan loop `for (let i = 0; ...) if (this.boundTextures[i] === texture) return i;`
returning the first slot index holding `tid`. -/
def scanSlots (tid : Nat) : List Nat → Nat → Option Nat
  | [], _ => none
  | b :: rest, i => if b = tid then some i else scanSlots tid rest (i + 1)

/-- The resolution `texture = texture || this.emptyTextures[location]` followed
by `texture = texture.baseTexture || texture`; `none` when both arguments are
absent or the slot is out of range (a JavaScript `TypeError`). -/
def resolveTex (st : WebGLRenderer) (texture : Option TexRef) (location : Option Nat) :
    Option Nat :=
  match texture with
  | some t => some t.resolved
  | none =>
    match location with
    | some loc => st.emptyTextures.get? loc
    | none => none

/-- Modelled from the spec: `TextureManager.updateTexture` (the texture
upload manager, whose source is not part of this repository) creates and
uploads the GPU-side representation of `tid` for the current context
generation, performs the actual driver bind at `location` as a side effect,
records the slot occupancy, and tracks `tid` as managed. -/
def updateTexture (st : WebGLRenderer) (tid : Nat) (location : Nat) :
    WebGLRenderer × List GLOp :=
  let h := st.nextGlHandle
  let tex := st.textures tid
  ({ st with
      textures := fun i =>
        if i = tid then
          { tex with glTextures := fun c =>
              if c = st.contextUID then some h else tex.glTextures c }
        else st.textures i,
      nextGlHandle := h + 1,
      boundTextures := st.boundTextures.set location tid,
      managedTextures := tid :: st.managedTextures },
   [GLOp.activeTexture location, GLOp.bindTex tid h])

/-- The GC stamp `texture.touched = this.textureGC.count`. -/
def touchTexture (st : WebGLRenderer) (tid : Nat) : WebGLRenderer :=
  { st with textures := fun i =>
      if i = tid then { st.textures tid with touched := st.gcCount }
      else st.textures i }

/-- Record occupancy of slot `i` by texture `tid`, leaving every other
field unchanged (the write `this.boundTextures[location] = texture`). -/
def setSlot (st : WebGLRenderer) (i tid : Nat) : WebGLRenderer :=
  { st with boundTextures := st.boundTextures.set i tid }

/-- The tail of `bindTexture` from the `glTexture` lookup on: delegate to the
upload manager when there is no handle for the current context generation,
return early when the slot already holds the texture, otherwise issue the
driver-level `activeTexture`/`bindTexture` pair and record occupancy.
`texture._newTexture` leads to a method call on `this.newTextureManager`,
which is never assigned in the source, so that path throws (`none`). -/
def bindAt (st : WebGLRenderer) (tid loc : Nat) :
    Option (WebGLRenderer × List GLOp × Nat) :=
  let tex := st.textures tid
  if tex.isNew then
    none
  else
    match tex.glTextures st.contextUID with
    | none =>
      let r := updateTexture st tid loc
      some (r.1, r.2, loc)
    | some h =>
      if st.boundTextures.get? loc = some tid then
        some (st, [], loc)
      else
        some ({ st with boundTextures := st.boundTextures.set loc tid },
              [GLOp.activeTexture loc, GLOp.bindTex tid h], loc)

/-- The body of `bindTexture` once the texture argument has been resolved
to a base texture `tid`: GC stamp, residency scan (unless forced),
round-robin slot choice when no slot is suggested, then the `glTexture`
stage (`bindAt`). -/
def bindTextureCore (st : WebGLRenderer) (tid : Nat) (location : Option Nat)
    (forceLocation : Bool) : Option (WebGLRenderer × List GLOp × Nat) :=
  let st := touchTexture st tid
  if !forceLocation then
    match scanSlots tid st.boundTextures 0 with
    | some i => some (st, [], i)
    | none =>
      match location with
      | some loc => bindAt st tid loc
      | none =>
        let n := (st.nextTextureLocation + 1) % st.boundTextures.length
        bindAt { st with nextTextureLocation := n } tid
          (st.boundTextures.length - n - 1)
  else
    bindAt st tid (location.getD 0)

/-- `WebGLRenderer.bindTexture(texture, location, forceLocation)`.  Returns
the updated renderer, the trace of driver calls, and the returned slot
index; `none` models a thrown `TypeError`. -/
def bindTexture (st : WebGLRenderer) (texture : Option TexRef) (location : Option Nat)
    (forceLocation : Bool) : Option (WebGLRenderer × List GLOp × Nat) :=
  match resolveTex st texture location with
  | none => none
  | some tid => bindTextureCore st tid location forceLocation

/-- The loop of `unbindTexture`: iterate `k` more slots starting at index
`i`; each slot holding `tid` is reset to that slot's empty placeholder and
rebound at the driver level (dereferencing the placeholder's handle for the
current context generation; `none` when it is missing). -/
def unbindLoop (tid : Nat) : Nat → Nat → WebGLRenderer → List GLOp →
    Option (WebGLRenderer × List GLOp)
  | _, 0, st, ops => some (st, ops)
  | i, k + 1, st, ops =>
    if st.boundTextures.get? i = some tid then
      match st.emptyTextures.get? i with
      | none => none
      | some eid =>
        match (st.textures eid).glTextures st.contextUID with
        | none => none
        | some h =>
          unbindLoop tid (i + 1) k
            { st with boundTextures := st.boundTextures.set i eid }
            (ops ++ [GLOp.activeTexture i, GLOp.bindTex eid h])
    else
      unbindLoop tid (i + 1) k st ops

/-- `WebGLRenderer.unbindTexture(texture)`. -/
def unbindTexture (st : WebGLRenderer) (texture : TexRef) :
    Option (WebGLRenderer × List GLOp) :=
  unbindLoop texture.resolved 0 st.boundTextures.length st []

/-- `WebGLRenderer.setObjectRenderer(objectRenderer)`: no-op when the
renderer is already current, otherwise `stop()` the current renderer,
reassign, apply the new renderer's state to the state manager, `start()`. -/
def setObjectRenderer (st : WebGLRenderer) (objectRenderer : Nat) :
    WebGLRenderer × List Ev :=
  if st.currentRenderer = objectRenderer then
    (st, [])
  else
    ({ st with
        currentRenderer := objectRenderer,
        stateManagerState := st.rendererStates objectRenderer },
     [Ev.rendererStop st.currentRenderer,
      Ev.setState (st.rendererStates objectRenderer),
      Ev.rendererStart objectRenderer])

/-- `WebGLRenderer.flush()`. -/
def flush (st : WebGLRenderer) : WebGLRenderer × List Ev :=
  setObjectRenderer st st.emptyRenderer

/-- Rendering as described by the spec's words for `flush`: switch the
object renderer to the sentinel empty renderer.  Used to compare the
source's `flush` against the spec. -/
def flushSpec (st : WebGLRenderer) : WebGLRenderer × List Ev :=
  setObjectRenderer st st.emptyRenderer

/-- `WebGLRenderer.render(displayObject, renderTexture, clear, transform,
skipUpdateTransform)`.  External collaborator calls (scene-graph transform
update, render-texture bind and clear, the display object's own drawing,
the GC tick, the driver flush) are recorded as events; the display object's
drawing callback is opaque.  The lost-context entry check returns before
any of them. -/
def render (st0 : WebGLRenderer) (displayObject : Nat) (renderTexture : Option Nat)
    (clear : Option Bool) (skipUpdateTransform : Bool) :
    WebGLRenderer × List Ev :=
  let st := { st0 with renderingToScreen := renderTexture.isNone }
  if !st.glPresent || st.contextLost then
    (st, [Ev.prerender])
  else
    let st := { st with nextTextureLocation := 0 }
    let st :=
      if renderTexture.isNone then
        { st with lastObjectRendered := some displayObject }
      else st
    (st,
     [Ev.prerender] ++
     (if !skipUpdateTransform then [Ev.updateTransform] else []) ++
     [Ev.renderTextureBind, Ev.rendererStart st.currentRenderer] ++
     (if clear.getD st.clearBeforeRender then [Ev.clearTarget] else []) ++
     [Ev.renderObject, Ev.rendererFlush st.currentRenderer, Ev.gcUpdate,
      Ev.glFlush, Ev.postrender])

/-- One iteration's table writes inside the `_initContext` loop: create the
fresh placeholder base texture `empty` (id `st.nextTextureId`) whose handle
for the current context generation is the shared `emptyGL` texture, and
store `tempObj` into `boundTextures[i]` and the placeholder into
`emptyTextures[i]`. -/
def initStepState (emptyGL tempObj : Nat) (i : Nat) (st : WebGLRenderer) :
    WebGLRenderer :=
  let eid := st.nextTextureId
  { st with
      nextTextureId := eid + 1,
      textures := fun j =>
        if j = eid then
          { touched := 0,
            glTextures := fun c =>
              if c = st.contextUID then some emptyGL else none,
            isNew := false }
        else st.textures j,
      boundTextures := st.boundTextures.set i tempObj,
      emptyTextures := st.emptyTextures.set i eid }

/-- The slot-initialisation loop of `_initContext`: for `k` more slots
starting at index `i`, perform the iteration's table writes and bind the
placeholder through `bindTexture(null, i)`. -/
def initSlots (emptyGL tempObj : Nat) : Nat → Nat → WebGLRenderer → List GLOp →
    Option (WebGLRenderer × List GLOp)
  | _, 0, st, ops => some (st, ops)
  | i, k + 1, st, ops =>
    let st := initStepState emptyGL tempObj i st
    match bindTexture st none (some i) false with
    | none => none
    | some (st, ops1, _) => initSlots emptyGL tempObj (i + 1) k st (ops ++ ops1)

/-- `WebGLRenderer._initContext()`: clear a lost context when the
`WEBGL_lose_context` extension is available, allocate fresh slot tables of
size `MAX_TEXTURE_IMAGE_UNITS` (the `new Array` holes and the `tempObj`
sentinel written into every slot are both modelled by the fresh `tempObj`
id, which matches no real texture), reconstruct the texture manager (so its
managed set is empty), create the shared 1×1 empty GL texture, and run the
slot-initialisation loop.  The `context` event emission and the trailing
`resize` touch no modelled state. -/
def _initContext (st0 : WebGLRenderer) : Option (WebGLRenderer × List GLOp) :=
  let st1 :=
    if st0.contextLost && st0.loseContextExt then
      { st0 with contextLost := false }
    else st0
  let maxTextures := st1.maxTextureUnits
  let emptyGL := st1.nextGlHandle
  let tempObj := st1.nextTextureId
  let st2 :=
    { st1 with
        nextGlHandle := emptyGL + 1,
        nextTextureId := tempObj + 1,
        managedTextures := [],
        textures := fun i =>
          if i = tempObj then
            { touched := 0, glTextures := fun _ => none, isNew := false }
          else st1.textures i,
        boundTextures := List.replicate maxTextures tempObj,
        emptyTextures := List.replicate maxTextures tempObj }
  initSlots emptyGL tempObj 0 maxTextures st2 []

/-- Modelled from the spec: `TextureManager.removeAll` (source not part of
this repository) drops the per-context GPU handles, for the current context
generation, of every texture tracked by the texture manager's managed set. -/
def removeAll (st : WebGLRenderer) : WebGLRenderer :=
  { st with
      textures := fun i =>
        if i ∈ st.managedTextures then
          let tex := st.textures i
          { tex with glTextures := fun c =>
              if c = st.contextUID then none else tex.glTextures c }
        else st.textures i }

/-- `WebGLRenderer.handleContextRestored()`: re-run `_initContext`, then
call `removeAll` on the texture manager (the one freshly constructed inside
`_initContext`). -/
def handleContextRestored (st : WebGLRenderer) :
    Option (WebGLRenderer × List GLOp) :=
  match _initContext st with
  | none => none
  | some (st1, ops) => some (removeAll st1, ops)

/-! ### Sequencing combinators used by the claims about call sequences -/

/-- Number of driver-level `bindTexture` calls in a trace that bind the
logical texture `tid`. -/
def countBindsOf (tid : Nat) (ops : List GLOp) : Nat :=
  ops.countP (fun op =>
    match op with
    | GLOp.bindTex t _ => t == tid
    | _ => false)

/-- A sequence of `n` non-forced `bindTexture` calls for the same texture
with no suggested slot. -/
def repeatBind (st : WebGLRenderer) (t : TexRef) :
    Nat → Option (WebGLRenderer × List GLOp)
  | 0 => some (st, [])
  | n + 1 =>
    match bindTexture st (some t) none false with
    | none => none
    | some (st1, ops1, _) =>
      match repeatBind st1 t n with
      | none => none
      | some (st2, ops2) => some (st2, ops1 ++ ops2)

/-- A sequence of non-forced `bindTexture` calls with arbitrary texture
arguments and slot suggestions. -/
def applyBinds (st : WebGLRenderer) :
    List (Option TexRef × Option Nat) → Option (WebGLRenderer × List GLOp)
  | [] => some (st, [])
  | (t, loc) :: rest =>
    match bindTexture st t loc false with
    | none => none
    | some (st1, ops1, _) =>
      match applyBinds st1 rest with
      | none => none
      | some (st2, ops2) => some (st2, ops1 ++ ops2)

/-- A sequence of non-forced `bindTexture` calls with no suggested slots,
one per texture id in the list, collecting the returned slot indices. -/
def bindFresh (st : WebGLRenderer) :
    List Nat → Option (WebGLRenderer × List Nat)
  | [] => some (st, [])
  | t :: ts =>
    match bindTexture st (some ⟨t, none⟩) none false with
    | none => none
    | some (st1, _, loc) =>
      match bindFresh st1 ts with
      | none => none
      | some (st2, locs) => some (st2, loc :: locs)

/-! ### Concrete states for witnesses and counterexamples -/

/-- A base texture with no GPU representation in any context generation. -/
def emptyBase : BaseTexture :=
  { touched := 0, glTextures := fun _ => none, isNew := false }

/-- A concrete renderer state as produced by initialisation with four
texture units (context uid 7): each slot holds its own placeholder
texture (ids 51–54, shared GL handle 100), and texture 20 is a regular
texture with a live handle 42 for the current generation. -/
def baseState : WebGLRenderer where
  boundTextures := [51, 52, 53, 54]
  emptyTextures := [51, 52, 53, 54]
  nextTextureLocation := 0
  contextUID := 7
  textures := fun i =>
    if i = 51 ∨ i = 52 ∨ i = 53 ∨ i = 54 then
      { touched := 0, glTextures := fun c => if c = 7 then some 100 else none,
        isNew := false }
    else if i = 20 then
      { touched := 0, glTextures := fun c => if c = 7 then some 42 else none,
        isNew := false }
    else emptyBase
  gcCount := 3
  nextGlHandle := 101
  nextTextureId := 55
  managedTextures := []
  currentRenderer := 0
  emptyRenderer := 0
  rendererStates := fun s => s + 10
  stateManagerState := 0
  glPresent := true
  contextLost := false
  loseContextExt := true
  maxTextureUnits := 4
  renderingToScreen := true
  lastObjectRendered := none
  clearBeforeRender := true


/-- A one-slot renderer whose single slot holds its own empty placeholder
(texture 9, the normal situation right after initialisation). -/
def c8State : WebGLRenderer :=
  { baseState with
      boundTextures := [9],
      emptyTextures := [9],
      textures := fun i =>
        if i = 9 then
          { touched := 0, glTextures := fun c => if c = 7 then some 5 else none,
            isNew := false }
        else emptyBase }

/-- A renderer that has lost its context while texture 30 (tracked by the
pre-loss texture manager) holds the live GPU handle 99 for the current
context generation 7. -/
def c3State : WebGLRenderer :=
  { baseState with
      contextLost := true,
      managedTextures := [30],
      textures := fun i =>
        if i = 30 then
          { touched := 0, glTextures := fun c => if c = 7 then some 99 else none,
            isNew := false }
        else baseState.textures i }

/-! ### Simp lemmas for the touch update and state projections -/

@[simp] theorem touchTexture_boundTextures (st : WebGLRenderer) (tid : Nat) :
    (touchTexture st tid).boundTextures = st.boundTextures := rfl

@[simp] theorem touchTexture_emptyTextures (st : WebGLRenderer) (tid : Nat) :
    (touchTexture st tid).emptyTextures = st.emptyTextures := rfl

@[simp] theorem touchTexture_nextTextureLocation (st : WebGLRenderer) (tid : Nat) :
    (touchTexture st tid).nextTextureLocation = st.nextTextureLocation := rfl

@[simp] theorem touchTexture_contextUID (st : WebGLRenderer) (tid : Nat) :
    (touchTexture st tid).contextUID = st.contextUID := rfl

@[simp] theorem touchTexture_gcCount (st : WebGLRenderer) (tid : Nat) :
    (touchTexture st tid).gcCount = st.gcCount := rfl

@[simp] theorem touchTexture_nextGlHandle (st : WebGLRenderer) (tid : Nat) :
    (touchTexture st tid).nextGlHandle = st.nextGlHandle := rfl

@[simp] theorem touchTexture_nextTextureId (st : WebGLRenderer) (tid : Nat) :
    (touchTexture st tid).nextTextureId = st.nextTextureId := rfl

@[simp] theorem touchTexture_managedTextures (st : WebGLRenderer) (tid : Nat) :
    (touchTexture st tid).managedTextures = st.managedTextures := rfl

@[simp] theorem touchTexture_glTextures (st : WebGLRenderer) (tid x : Nat) :
    ((touchTexture st tid).textures x).glTextures = (st.textures x).glTextures := by
  by_cases h : x = tid <;> simp [touchTexture, h]

@[simp] theorem touchTexture_isNew (st : WebGLRenderer) (tid x : Nat) :
    ((touchTexture st tid).textures x).isNew = (st.textures x).isNew := by
  by_cases h : x = tid <;> simp [touchTexture, h]

/-! ### Helper lemmas about the slot scan and slot writes -/

theorem scanSlots_eq_none {tid : Nat} {l : List Nat} {i : Nat} :
    scanSlots tid l i = none ↔ tid ∉ l := by
  induction l generalizing i with
  | nil => simp [scanSlots]
  | cons b rest ih =>
    by_cases hb : b = tid
    · simp [scanSlots, hb]
    · simp [scanSlots, hb, ih, Ne.symm hb]

theorem scanSlots_of_first {tid : Nat} {l : List Nat} {k : Nat}
    (hk : l.get? k = some tid) (hmin : ∀ m < k, l.get? m ≠ some tid) :
    ∀ i, scanSlots tid l i = some (i + k) := by
  induction l generalizing k with
  | nil => simp at hk
  | cons b rest ih =>
    intro i
    cases k with
    | zero =>
      simp at hk
      simp [scanSlots, hk]
    | succ k =>
      have hb : b ≠ tid := by
        have := hmin 0 (Nat.succ_pos k)
        simpa using this
      have hk' : rest.get? k = some tid := by simpa using hk
      have hmin' : ∀ m < k, rest.get? m ≠ some tid := by
        intro m hm
        have := hmin (m + 1) (Nat.succ_lt_succ hm)
        simpa using this
      have := ih hk' hmin' (i + 1)
      simp [scanSlots, hb, this]
      omega

theorem scanSlots_mem {tid : Nat} {l : List Nat} {i j : Nat}
    (h : scanSlots tid l i = some j) : tid ∈ l := by
  induction l generalizing i with
  | nil => simp [scanSlots] at h
  | cons b rest ih =>
    by_cases hb : b = tid
    · simp [hb]
    · simp [scanSlots, hb] at h
      exact List.mem_cons_of_mem _ (ih h)

theorem mem_set_or {l : List Nat} {i a x : Nat} (h : x ∈ l.set i a) :
    x = a ∨ x ∈ l := by
  induction l generalizing i with
  | nil => simp [List.set] at h
  | cons b rest ih =>
    cases i with
    | zero =>
      simp [List.set] at h
      rcases h with h | h
      · exact Or.inl h
      · exact Or.inr (List.mem_cons_of_mem _ h)
    | succ i =>
      simp [List.set] at h
      rcases h with h | h
      · exact Or.inr (by simp [h])
      · rcases ih h with h' | h'
        · exact Or.inl h'
        · exact Or.inr (List.mem_cons_of_mem _ h')

theorem mem_set_self {l : List Nat} {i a : Nat} (h : i < l.length) :
    a ∈ l.set i a := by
  induction l generalizing i with
  | nil => simp at h
  | cons b rest ih =>
    cases i with
    | zero => simp [List.set]
    | succ i =>
      simp [List.set]
      exact Or.inr (ih (by simpa using h))

theorem nodup_set {l : List Nat} {i a : Nat} (hnd : l.Nodup) (ha : a ∉ l) :
    (l.set i a).Nodup := by
  induction l generalizing i with
  | nil => simp [List.set]
  | cons b rest ih =>
    cases i with
    | zero =>
      simp [List.set]
      exact ⟨fun hmem => ha (List.mem_cons_of_mem _ hmem), List.Nodup.of_cons hnd⟩
    | succ i =>
      simp only [List.set]
      rcases List.nodup_cons.mp hnd with ⟨hb, hrest⟩
      refine List.nodup_cons.mpr ⟨?_, ih hrest (fun hm => ha (List.mem_cons_of_mem _ hm))⟩
      intro hmem
      rcases mem_set_or hmem with h' | h'
      · exact ha (by simp [← h'])
      · exact hb h'

/-! ### Claim C9 -/

/-- Claim C9: `flush()` is extensionally equal to
`setObjectRenderer(emptyRenderer)`: on every renderer state it produces
exactly the state transition and the start/stop/state-application events
that `setObjectRenderer` applied to the sentinel empty renderer produces. -/
theorem c9_flush_is_setObjectRenderer_empty (st : WebGLRenderer) :
    flush st = setObjectRenderer st st.emptyRenderer ∧ flush st = flushSpec st :=
  ⟨rfl, rfl⟩

/-! ### Claims C4 and C10: render on a lost context -/

/-- Claim C4: a `render` call made while the context is lost or the gl
reference is absent returns (without raising) having performed no
GPU-mutating work: the event trace is just the `prerender` emission — no
render-target bind, no object-renderer start or flush, no clear, no GC
tick, no driver flush — and the only state change is the
`renderingToScreen` flag. -/
theorem c4_render_noop_when_context_lost (st : WebGLRenderer) (d : Nat)
    (rt : Option Nat) (clear : Option Bool) (skip : Bool)
    (h : st.glPresent = false ∨ st.contextLost = true) :
    render st d rt clear skip =
      ({ st with renderingToScreen := rt.isNone }, [Ev.prerender]) := by
  rcases h with h | h <;> simp [render, h]

/-- Claim C10: even on a lost context, `render` still emits `prerender`
and still updates `renderingToScreen` (both precede the entry check), and
never emits `postrender` for that call. -/
theorem c10_render_lost_prerender_no_postrender (st : WebGLRenderer) (d : Nat)
    (rt : Option Nat) (clear : Option Bool) (skip : Bool)
    (h : st.contextLost = true) :
    (render st d rt clear skip).1.renderingToScreen = rt.isNone ∧
    Ev.prerender ∈ (render st d rt clear skip).2 ∧
    Ev.postrender ∉ (render st d rt clear skip).2 := by
  simp [render, h]

/-! ### Claim C5: object renderer dispatch -/

/-- Claim C5: `setObjectRenderer(next)` is a no-op when `next` is already
current; otherwise it performs exactly, in this order, `stop()` on the
previous renderer, the reassignment, the application of `next`'s state to
the state manager, then `start()` on `next`; and a second consecutive call
with the same argument is a no-op, so the pair of calls invokes
`start()`/`stop()` exactly once total. -/
theorem c5_setObjectRenderer_dispatch (st : WebGLRenderer) (next : Nat) :
    (st.currentRenderer = next → setObjectRenderer st next = (st, [])) ∧
    (st.currentRenderer ≠ next →
      setObjectRenderer st next =
        ({ st with
            currentRenderer := next,
            stateManagerState := st.rendererStates next },
         [Ev.rendererStop st.currentRenderer,
          Ev.setState (st.rendererStates next),
          Ev.rendererStart next])) ∧
    setObjectRenderer (setObjectRenderer st next).1 next =
      ((setObjectRenderer st next).1, []) := by
  refine ⟨fun h => by simp [setObjectRenderer, h], fun h => by simp [setObjectRenderer, h], ?_⟩
  by_cases h : st.currentRenderer = next
  · simp [setObjectRenderer, h]
  · simp [setObjectRenderer, h]

theorem c4_witness :
    (({ baseState with contextLost := true } : WebGLRenderer).glPresent = false ∨
      ({ baseState with contextLost := true } : WebGLRenderer).contextLost = true) ∧
    render { baseState with contextLost := true } 1 none none false =
      ({ { baseState with contextLost := true } with renderingToScreen := true },
       [Ev.prerender]) :=
  ⟨Or.inr rfl,
   c4_render_noop_when_context_lost { baseState with contextLost := true } 1 none none
     false (Or.inr rfl)⟩

theorem c10_witness :
    ({ baseState with contextLost := true } : WebGLRenderer).contextLost = true ∧
    ((render { baseState with contextLost := true } 1 (some 3) none false).1.renderingToScreen
        = (some (3 : Nat)).isNone ∧
      Ev.prerender ∈ (render { baseState with contextLost := true } 1 (some 3) none false).2 ∧
      Ev.postrender ∉ (render { baseState with contextLost := true } 1 (some 3) none false).2) :=
  ⟨rfl,
   c10_render_lost_prerender_no_postrender { baseState with contextLost := true } 1
     (some 3) none false rfl⟩

theorem c5_witness :
    (baseState.currentRenderer ≠ 1 ∧
      setObjectRenderer baseState 1 =
        ({ baseState with currentRenderer := 1, stateManagerState := 11 },
         [Ev.rendererStop 0, Ev.setState 11, Ev.rendererStart 1])) ∧
    setObjectRenderer (setObjectRenderer baseState 1).1 1 =
      ((setObjectRenderer baseState 1).1, []) :=
  ⟨⟨by decide, (c5_setObjectRenderer_dispatch baseState 1).2.1 (by decide)⟩,
   (c5_setObjectRenderer_dispatch baseState 1).2.2⟩

/-! ### Claim C2: forced binds -/

/-- Claim C2 fails on the code: a forced `bindTexture` call whose target
slot (slot 0, since no slot is given) already holds the texture returns
without performing any driver-level call — the trace of driver operations
is empty — contradicting "the driver-level bind of t to that slot is
always performed ... even when the slot already holds t". -/
theorem c2_counterexample :
    (bindTexture { baseState with boundTextures := [20, 52, 53, 54] }
        (some ⟨20, none⟩) none true).map (fun r => (r.2.1, r.2.2)) =
      some ([], 0) := by
  rfl

/-- Claim C2 as amended: with `force` set, slot 0 is used when no slot is
given (and the suggested slot otherwise); the residency scan over the
other slots is skipped, and the driver-level bind to the target slot is
performed regardless of which texture occupies any *other* slot; but when
the target slot itself already holds the texture (and the texture has a
live GPU representation for the current generation) the call returns with
no driver operation; when there is no live representation the driver bind
happens inside the upload manager delegation. -/
theorem c2_forced_bind (st : WebGLRenderer) (t : TexRef) (loc : Option Nat)
    (hnew : (st.textures t.resolved).isNew = false) :
    (∃ st' ops, bindTexture st (some t) loc true = some (st', ops, loc.getD 0)) ∧
    (∀ h, (st.textures t.resolved).glTextures st.contextUID = some h →
      (st.boundTextures.get? (loc.getD 0) = some t.resolved →
        ∃ st', bindTexture st (some t) loc true = some (st', [], loc.getD 0)) ∧
      (st.boundTextures.get? (loc.getD 0) ≠ some t.resolved →
        ∃ st', bindTexture st (some t) loc true =
          some (st',
            [GLOp.activeTexture (loc.getD 0), GLOp.bindTex t.resolved h],
            loc.getD 0))) ∧
    ((st.textures t.resolved).glTextures st.contextUID = none →
      ∃ st', bindTexture st (some t) loc true =
        some (st',
          [GLOp.activeTexture (loc.getD 0), GLOp.bindTex t.resolved st.nextGlHandle],
          loc.getD 0)) := by
  refine ⟨?_, fun h hgl => ⟨fun hocc => ?_, fun hocc => ?_⟩, fun hgl => ?_⟩
  · simp only [bindTexture, bindTextureCore, resolveTex, bindAt, updateTexture, hnew]
    rcases hfind : (st.textures t.resolved).glTextures st.contextUID with _ | h
    · simp [hfind, hnew]
    · rw [List.get?_eq_getElem?]
      by_cases hocc : st.boundTextures[loc.getD 0]? = some t.resolved
      · simp [hfind, hocc, hnew]
      · simp [hfind, hocc, hnew]
  · rw [List.get?_eq_getElem?] at hocc
    simp [bindTexture, bindTextureCore, resolveTex, bindAt, hnew, hgl, hocc]
  · rw [List.get?_eq_getElem?] at hocc
    simp [bindTexture, bindTextureCore, resolveTex, bindAt, hnew, hgl, hocc]
  · simp [bindTexture, bindTextureCore, resolveTex, bindAt, updateTexture, hnew, hgl]

theorem c2_witness :
    (baseState.textures 20).isNew = false ∧
    ((∃ st' ops, bindTexture baseState (some ⟨20, none⟩) none true = some (st', ops, 0)) ∧
     (∀ h, (baseState.textures 20).glTextures baseState.contextUID = some h →
        (baseState.boundTextures.get? 0 = some 20 →
          ∃ st', bindTexture baseState (some ⟨20, none⟩) none true = some (st', [], 0)) ∧
        (baseState.boundTextures.get? 0 ≠ some 20 →
          ∃ st', bindTexture baseState (some ⟨20, none⟩) none true =
            some (st', [GLOp.activeTexture 0, GLOp.bindTex 20 h], 0))) ∧
     ((baseState.textures 20).glTextures baseState.contextUID = none →
        ∃ st', bindTexture baseState (some ⟨20, none⟩) none true =
          some (st',
            [GLOp.activeTexture 0, GLOp.bindTex 20 baseState.nextGlHandle], 0))) :=
  ⟨rfl, c2_forced_bind baseState ⟨20, none⟩ none rfl⟩

/-! ### Behaviour of a single bindTexture call -/

theorem countBindsOf_append (tid : Nat) (a b : List GLOp) :
    countBindsOf tid (a ++ b) = countBindsOf tid a + countBindsOf tid b :=
  List.countP_append _ _ _

theorem countBindsOf_pair (tid t loc h : Nat) :
    countBindsOf tid [GLOp.activeTexture loc, GLOp.bindTex t h] =
      if t = tid then 1 else 0 := by
  by_cases ht : t = tid <;>
    simp [countBindsOf, List.countP_cons, ht]

/-- Case analysis of the tail of `bindTexture` (`bindAt`): the returned
index is the requested slot; the tables keep their length; occupancy of the
requested slot is recorded (when in range); at most one driver bind of the
texture and none of any other texture is issued; and slot exclusivity is
preserved when the texture was not yet resident. -/
theorem bindAt_spec {st : WebGLRenderer} {tid loc : Nat}
    {st' : WebGLRenderer} {ops : List GLOp} {i : Nat}
    (h : bindAt st tid loc = some (st', ops, i)) :
    i = loc ∧
    st'.boundTextures.length = st.boundTextures.length ∧
    st'.nextTextureLocation = st.nextTextureLocation ∧
    st'.emptyTextures = st.emptyTextures ∧
    st'.contextUID = st.contextUID ∧
    (∀ x, (st'.textures x).isNew = (st.textures x).isNew) ∧
    (loc < st.boundTextures.length → tid ∈ st'.boundTextures) ∧
    (∀ x ∈ st'.boundTextures, x ∈ st.boundTextures ∨ x = tid) ∧
    countBindsOf tid ops ≤ 1 ∧
    (∀ x, x ≠ tid → countBindsOf x ops = 0) ∧
    (st.boundTextures.Nodup → tid ∉ st.boundTextures → st'.boundTextures.Nodup) ∧
    (tid ∉ st.boundTextures → st'.boundTextures = st.boundTextures.set loc tid) := by
  simp only [bindAt] at h
  cases hnew : (st.textures tid).isNew with
  | true =>
    rw [hnew] at h
    simp at h
  | false =>
    rw [hnew] at h
    simp only [Bool.false_eq_true, if_false] at h
    rcases hgl : (st.textures tid).glTextures st.contextUID with _ | gh <;>
      rw [hgl] at h
    · simp only [updateTexture, Option.some.injEq, Prod.mk.injEq] at h
      obtain ⟨hst, hops, hi⟩ := h
      subst hst hops hi
      refine ⟨rfl, by simp, rfl, rfl, rfl, ?_, ?_, ?_, ?_, ?_, ?_, fun _ => rfl⟩
      · intro x
        by_cases hx : x = tid <;> simp [hx, hnew]
      · intro hlt
        exact mem_set_self hlt
      · intro x hx
        rcases mem_set_or hx with h' | h'
        · exact Or.inr h'
        · exact Or.inl h'
      · rw [countBindsOf_pair]
        simp
      · intro x hx
        rw [countBindsOf_pair]
        simp [Ne.symm hx]
      · intro hnd hmem
        exact nodup_set hnd hmem
    · dsimp only at h
      by_cases hocc : st.boundTextures.get? loc = some tid
      · rw [if_pos hocc] at h
        simp only [Option.some.injEq, Prod.mk.injEq] at h
        obtain ⟨hst, hops, hi⟩ := h
        subst hst hops hi
        refine ⟨rfl, rfl, rfl, rfl, rfl, fun _ => rfl, ?_, ?_, ?_, ?_, ?_, ?_⟩
        · intro _
          exact List.get?_mem hocc
        · intro x hx
          exact Or.inl hx
        · simp [countBindsOf]
        · intro x _
          simp [countBindsOf]
        · intro hnd _
          exact hnd
        · intro hmem
          exact absurd (List.get?_mem hocc) hmem
      · rw [if_neg hocc] at h
        simp only [Option.some.injEq, Prod.mk.injEq] at h
        obtain ⟨hst, hops, hi⟩ := h
        subst hst hops hi
        refine ⟨rfl, by simp, rfl, rfl, rfl, fun _ => rfl, ?_, ?_, ?_, ?_, ?_, fun _ => rfl⟩
        · intro hlt
          exact mem_set_self hlt
        · intro x hx
          rcases mem_set_or hx with h' | h'
          · exact Or.inr h'
          · exact Or.inl h'
        · rw [countBindsOf_pair]
          simp
        · intro x hx
          rw [countBindsOf_pair]
          simp [Ne.symm hx]
        · intro hnd hmem
          exact nodup_set hnd hmem

/-- Behaviour of a single non-forced `bindTexture` call, for any resolved
base texture `tid`. -/
theorem bindCore_nf_spec {st : WebGLRenderer} {tid : Nat} {loc : Option Nat}
    {st' : WebGLRenderer} {ops : List GLOp} {i : Nat}
    (h : bindTextureCore st tid loc false = some (st', ops, i)) :
    st'.boundTextures.length = st.boundTextures.length ∧
    st'.emptyTextures = st.emptyTextures ∧
    st'.contextUID = st.contextUID ∧
    (∀ x, (st'.textures x).isNew = (st.textures x).isNew) ∧
    (tid ∈ st.boundTextures →
      ops = [] ∧ st'.boundTextures = st.boundTextures ∧
      st'.nextTextureLocation = st.nextTextureLocation) ∧
    (loc = none → 0 < st.boundTextures.length → tid ∈ st'.boundTextures) ∧
    countBindsOf tid ops ≤ 1 ∧
    (∀ x, x ≠ tid → countBindsOf x ops = 0) ∧
    (st.boundTextures.Nodup → st'.boundTextures.Nodup) ∧
    (∀ x ∈ st'.boundTextures, x ∈ st.boundTextures ∨ x = tid) := by
  simp only [bindTextureCore] at h
  rcases hscan : scanSlots tid st.boundTextures 0 with _ | j
  · -- texture not yet resident
    have hnotin : tid ∉ st.boundTextures := scanSlots_eq_none.mp hscan
    rcases loc with _ | loc2
    · -- no suggested slot: round-robin choice, then bindAt
      rw [show scanSlots tid (touchTexture st tid).boundTextures 0 =
            none from hscan] at h
      simp only [Bool.not_false, if_pos] at h
      set n := ((touchTexture st tid).nextTextureLocation + 1) %
        (touchTexture st tid).boundTextures.length with hn
      have hspec := bindAt_spec h
      obtain ⟨hi, hlen, hloc, hemp, huid, hnewp, hmem, hprop, hcnt, hcnt', hnd, hset⟩ := hspec
      refine ⟨by simpa using hlen, by simpa using hemp, by simpa using huid,
        fun x => by simpa using hnewp x, ?_, ?_, hcnt, hcnt', ?_, ?_⟩
      · intro hres
        exact absurd hres hnotin
      · intro _ hlenpos
        apply hmem
        simp only [touchTexture_boundTextures]
        have hnlt : n < st.boundTextures.length := by
          have := Nat.mod_lt ((touchTexture st tid).nextTextureLocation + 1)
            (by simpa using hlenpos)
          simpa [hn] using this
        omega
      · intro hdup
        exact hnd (by simpa using hdup) (by simpa using hnotin)
      · intro x hx
        rcases hprop x hx with h' | h'
        · exact Or.inl (by simpa using h')
        · exact Or.inr h'
    · -- suggested slot taken as is
      rw [show scanSlots tid (touchTexture st tid).boundTextures 0 =
            none from hscan] at h
      simp only [Bool.not_false, if_pos] at h
      have hspec := bindAt_spec h
      obtain ⟨hi, hlen, hloc, hemp, huid, hnewp, hmem, hprop, hcnt, hcnt', hnd, hset⟩ := hspec
      refine ⟨by simpa using hlen, by simpa using hemp, by simpa using huid,
        fun x => by simpa using hnewp x, ?_, ?_, hcnt, hcnt', ?_, ?_⟩
      · intro hres
        exact absurd hres hnotin
      · intro hcontr
        exact absurd hcontr (by simp)
      · intro hdup
        exact hnd (by simpa using hdup) (by simpa using hnotin)
      · intro x hx
        rcases hprop x hx with h' | h'
        · exact Or.inl (by simpa using h')
        · exact Or.inr h'
  · -- already resident: early return
    rw [show scanSlots tid (touchTexture st tid).boundTextures 0 =
          some j from hscan] at h
    simp only [Bool.not_false, if_pos] at h
    obtain ⟨hst, hops, hi⟩ := by
      simpa using h
    subst hst hops
    refine ⟨by simp, by simp, by simp, fun x => by simp, ?_, ?_, ?_, ?_, ?_, ?_⟩
    · intro _
      exact ⟨rfl, by simp, by simp⟩
    · intro _ _
      simp only [touchTexture_boundTextures]
      exact scanSlots_mem hscan
    · simp [countBindsOf]
    · intro x _
      simp [countBindsOf]
    · intro hdup
      simpa using hdup
    · intro x hx
      exact Or.inl (by simpa using hx)

/-- Behaviour of a single non-forced `bindTexture` call with an explicit
texture argument. -/
theorem bind_nf_spec {st : WebGLRenderer} {t : TexRef} {loc : Option Nat}
    {st' : WebGLRenderer} {ops : List GLOp} {i : Nat}
    (h : bindTexture st (some t) loc false = some (st', ops, i)) :
    st'.boundTextures.length = st.boundTextures.length ∧
    st'.emptyTextures = st.emptyTextures ∧
    st'.contextUID = st.contextUID ∧
    (∀ x, (st'.textures x).isNew = (st.textures x).isNew) ∧
    (t.resolved ∈ st.boundTextures →
      ops = [] ∧ st'.boundTextures = st.boundTextures ∧
      st'.nextTextureLocation = st.nextTextureLocation) ∧
    (loc = none → 0 < st.boundTextures.length → t.resolved ∈ st'.boundTextures) ∧
    countBindsOf t.resolved ops ≤ 1 ∧
    (∀ x, x ≠ t.resolved → countBindsOf x ops = 0) ∧
    (st.boundTextures.Nodup → st'.boundTextures.Nodup) ∧
    (∀ x ∈ st'.boundTextures, x ∈ st.boundTextures ∨ x = t.resolved) := by
  rw [bindTexture] at h
  dsimp only [resolveTex] at h
  exact bindCore_nf_spec h

/-- Once resident, a sequence of non-forced binds of the same texture
issues no driver bind at all and leaves the slot table unchanged. -/
theorem repeatBind_resident {t : TexRef} :
    ∀ (n : Nat) (st st' : WebGLRenderer) (ops : List GLOp),
      t.resolved ∈ st.boundTextures →
      repeatBind st t n = some (st', ops) →
      countBindsOf t.resolved ops = 0 ∧ st'.boundTextures = st.boundTextures := by
  intro n
  induction n with
  | zero =>
    intro st st' ops hmem h
    simp [repeatBind] at h
    obtain ⟨rfl, rfl⟩ := h
    exact ⟨rfl, rfl⟩
  | succ n ih =>
    intro st st' ops hmem h
    rw [repeatBind] at h
    rcases hb : bindTexture st (some t) none false with _ | ⟨st1, ops1, j⟩
    · rw [hb] at h
      simp at h
    · rw [hb] at h
      dsimp only at h
      rcases hr : repeatBind st1 t n with _ | ⟨st2, ops2⟩
      · rw [hr] at h
        simp at h
      · rw [hr] at h
        dsimp only at h
        simp only [Option.some.injEq, Prod.mk.injEq] at h
        obtain ⟨rfl, rfl⟩ := h
        have hspec := bind_nf_spec hb
        obtain ⟨hops1, hbt1, -⟩ := hspec.2.2.2.2.1 hmem
        have hmem1 : t.resolved ∈ st1.boundTextures := hbt1 ▸ hmem
        obtain ⟨hc2, hbt2⟩ := ih st1 st2 ops2 hmem1 hr
        subst hops1
        refine ⟨by simpa [countBindsOf_append] using hc2, ?_⟩
        rw [hbt2, hbt1]

/-- Claim C1: a non-forced `bindTexture` call whose resolved base texture
is already held by slot `i` (the first such slot) returns `i`, performs no
driver-level call, and leaves the bound-texture table unchanged (only the
GC stamp of the texture is updated); consequently any sequence of
non-forced binds repeating the same logical texture issues at most one
driver-level bind of that texture in total. -/
theorem c1_no_redundant_rebind :
    (∀ (st : WebGLRenderer) (t : TexRef) (loc : Option Nat) (i : Nat),
        st.boundTextures.get? i = some t.resolved →
        (∀ j, j < i → st.boundTextures.get? j ≠ some t.resolved) →
        bindTexture st (some t) loc false = some (touchTexture st t.resolved, [], i) ∧
        (touchTexture st t.resolved).boundTextures = st.boundTextures) ∧
    (∀ (st : WebGLRenderer) (t : TexRef) (n : Nat) (st' : WebGLRenderer)
        (ops : List GLOp),
        0 < st.boundTextures.length →
        repeatBind st t n = some (st', ops) →
        countBindsOf t.resolved ops ≤ 1) := by
  constructor
  · intro st t loc i hi hmin
    have hscan := scanSlots_of_first hi hmin 0
    simp only [Nat.zero_add] at hscan
    constructor
    · rw [bindTexture]
      dsimp only [resolveTex]
      simp only [bindTextureCore]
      rw [show scanSlots t.resolved (touchTexture st t.resolved).boundTextures 0 =
        some i from hscan]
      simp
    · simp
  · intro st t n st' ops hlen h
    cases n with
    | zero =>
      simp [repeatBind] at h
      obtain ⟨rfl, rfl⟩ := h
      simp [countBindsOf]
    | succ n =>
      rw [repeatBind] at h
      rcases hb : bindTexture st (some t) none false with _ | ⟨st1, ops1, j⟩
      · rw [hb] at h
        simp at h
      · rw [hb] at h
        dsimp only at h
        rcases hr : repeatBind st1 t n with _ | ⟨st2, ops2⟩
        · rw [hr] at h
          simp at h
        · rw [hr] at h
          dsimp only at h
          simp only [Option.some.injEq, Prod.mk.injEq] at h
          obtain ⟨rfl, rfl⟩ := h
          have hspec := bind_nf_spec hb
          have hmem1 : t.resolved ∈ st1.boundTextures :=
            hspec.2.2.2.2.2.1 rfl hlen
          obtain ⟨hc2, -⟩ := repeatBind_resident n st1 st2 ops2 hmem1 hr
          have hc1 : countBindsOf t.resolved ops1 ≤ 1 := hspec.2.2.2.2.2.2.1
          simp [countBindsOf_append, hc2]
          omega

theorem c1_witness :
    (baseState.boundTextures.get? 0 = some 51 ∧
      bindTexture baseState (some ⟨51, none⟩) none false =
        some (touchTexture baseState 51, [], 0) ∧
      (touchTexture baseState 51).boundTextures = baseState.boundTextures) ∧
    (0 < baseState.boundTextures.length ∧
      ∃ r, repeatBind baseState ⟨20, none⟩ 3 = some r ∧ countBindsOf 20 r.2 ≤ 1) := by
  refine ⟨⟨rfl, c1_no_redundant_rebind.1 baseState ⟨51, none⟩ none 0 rfl
    (fun j hj => absurd hj (Nat.not_lt_zero j))⟩, by decide, ?_⟩
  rcases hr : repeatBind baseState ⟨20, none⟩ 3 with _ | r
  · have hs : (repeatBind baseState ⟨20, none⟩ 3).isSome = true := by decide
    rw [hr] at hs
    simp at hs
  · exact ⟨r, rfl, c1_no_redundant_rebind.2 baseState ⟨20, none⟩ 3 r.1 r.2
      (by decide) (by rw [hr])⟩

/-! ### Claim C8: unbindTexture -/

theorem get?_set_self {l : List Nat} {i a : Nat} (h : i < l.length) :
    (l.set i a).get? i = some a := by
  induction l generalizing i with
  | nil => simp at h
  | cons b rest ih =>
    cases i with
    | zero => rfl
    | succ i => simpa [List.set] using ih (by simpa using h)

theorem get?_set_ne {l : List Nat} {i j a : Nat} (h : i ≠ j) :
    (l.set i a).get? j = l.get? j := by
  induction l generalizing i j with
  | nil => simp [List.set]
  | cons b rest ih =>
    cases i with
    | zero =>
      cases j with
      | zero => exact absurd rfl h
      | succ j => rfl
    | succ i =>
      cases j with
      | zero => rfl
      | succ j => simpa [List.set] using ih (fun hh => h (by rw [hh]))

theorem lt_length_of_get?_eq_some {l : List Nat} {i a : Nat}
    (h : l.get? i = some a) : i < l.length := by
  by_contra hc
  rw [List.get?_eq_none.mpr (Nat.le_of_not_lt hc)] at h
  exact Option.noConfusion h

/-- Induction workhorse for the `unbindTexture` loop over slots
`i, i+1, …, i+k-1`. -/
theorem unbindLoop_spec {tid : Nat} :
    ∀ (k i : Nat) (st : WebGLRenderer) (ops : List GLOp)
      (st' : WebGLRenderer) (ops' : List GLOp),
      unbindLoop tid i k st ops = some (st', ops') →
      st'.boundTextures.length = st.boundTextures.length ∧
      st'.emptyTextures = st.emptyTextures ∧
      st'.contextUID = st.contextUID ∧
      st'.textures = st.textures ∧
      (∀ op ∈ ops, op ∈ ops') ∧
      (∀ j, j < i ∨ i + k ≤ j →
        st'.boundTextures.get? j = st.boundTextures.get? j) ∧
      (∀ j, i ≤ j → j < i + k →
        (st.boundTextures.get? j = some tid →
          ∃ eid hdl, st.emptyTextures.get? j = some eid ∧
            (st.textures eid).glTextures st.contextUID = some hdl ∧
            st'.boundTextures.get? j = some eid ∧
            GLOp.activeTexture j ∈ ops' ∧ GLOp.bindTex eid hdl ∈ ops') ∧
        (st.boundTextures.get? j ≠ some tid →
          st'.boundTextures.get? j = st.boundTextures.get? j)) := by
  intro k
  induction k with
  | zero =>
    intro i st ops st' ops' h
    rw [unbindLoop] at h
    simp only [Option.some.injEq, Prod.mk.injEq] at h
    obtain ⟨rfl, rfl⟩ := h
    refine ⟨rfl, rfl, rfl, rfl, fun op hop => hop, fun j _ => rfl, ?_⟩
    intro j hj1 hj2
    omega
  | succ k ih =>
    intro i st ops st' ops' h
    rw [unbindLoop] at h
    by_cases hj : st.boundTextures.get? i = some tid
    · rw [if_pos hj] at h
      rcases he : st.emptyTextures.get? i with _ | eid <;> rw [he] at h
      · simp at h
      · dsimp only at h
        rcases hh : (st.textures eid).glTextures st.contextUID with _ | hdl <;>
          rw [hh] at h
        · simp at h
        · dsimp only at h
          obtain ⟨hlen, hemp, huid, htex, hacc, hout, hin⟩ :=
            ih (i + 1) _ _ st' ops' h
          have hilt : i < st.boundTextures.length := lt_length_of_get?_eq_some hj
          refine ⟨by simpa using hlen, hemp, huid, htex, ?_, ?_, ?_⟩
          · intro op hop
            exact hacc op (by simp [hop])
          · intro j hj'
            have : st'.boundTextures.get? j =
                (st.boundTextures.set i eid).get? j := by
              apply hout
              omega
            rw [this, get?_set_ne (by omega)]
          · intro j hjl hjr
            rcases Nat.eq_or_lt_of_le hjl with rfl | hjgt
            · refine ⟨fun _ => ⟨eid, hdl, he, hh, ?_, ?_, ?_⟩, fun hne => absurd hj hne⟩
              · have : st'.boundTextures.get? i =
                    (st.boundTextures.set i eid).get? i := by
                  apply hout
                  omega
                rw [this, get?_set_self hilt]
              · exact hacc _ (by simp)
              · exact hacc _ (by simp)
            · have hgetj : (st.boundTextures.set i eid).get? j =
                  st.boundTextures.get? j := get?_set_ne (by omega)
              obtain ⟨hpos, hneg⟩ := hin j (by omega) (by omega)
              constructor
              · intro hjt
                obtain ⟨e2, h2, he2, hh2, hb2, ho1, ho2⟩ := hpos (by rw [hgetj]; exact hjt)
                exact ⟨e2, h2, he2, hh2, hb2, ho1, ho2⟩
              · intro hne
                rw [hneg (by rw [hgetj]; exact hne), hgetj]
    · rw [if_neg hj] at h
      obtain ⟨hlen, hemp, huid, htex, hacc, hout, hin⟩ := ih (i + 1) _ _ st' ops' h
      refine ⟨hlen, hemp, huid, htex, hacc, ?_, ?_⟩
      · intro j hj'
        apply hout
        omega
      · intro j hjl hjr
        rcases Nat.eq_or_lt_of_le hjl with rfl | hjgt
        · refine ⟨fun hjt => absurd hjt hj, fun _ => ?_⟩
          apply hout
          omega
        · exact hin j (by omega) (by omega)

/-- Claim C8 fails on the code in one corner: unbinding a texture that is
itself a slot's empty placeholder re-installs it, so the slot still
references the texture afterwards.  Concretely, on a one-slot renderer
whose slot 0 holds its own placeholder (texture 9), `unbindTexture` of
texture 9 leaves slot 0 referencing texture 9. -/
theorem c8_counterexample :
    (unbindTexture c8State ⟨9, none⟩).map
      (fun r => r.1.boundTextures.get? 0) = some (some 9) := rfl

/-- Claim C8 as amended: every slot whose entry equals the resolved base
texture of `t` is reset to that slot's empty placeholder and rebound at
the driver level; slots that did not hold `t` are unchanged; and after
the call a slot references `t` only if `t` is that slot's own empty
placeholder. -/
theorem c8_unbindTexture_resets_slots (st : WebGLRenderer) (t : TexRef)
    (st' : WebGLRenderer) (ops : List GLOp)
    (h : unbindTexture st t = some (st', ops)) :
    (∀ j, st.boundTextures.get? j = some t.resolved →
      ∃ eid hdl, st.emptyTextures.get? j = some eid ∧
        st'.boundTextures.get? j = some eid ∧
        (st.textures eid).glTextures st.contextUID = some hdl ∧
        GLOp.activeTexture j ∈ ops ∧ GLOp.bindTex eid hdl ∈ ops) ∧
    (∀ j, st.boundTextures.get? j ≠ some t.resolved →
      st'.boundTextures.get? j = st.boundTextures.get? j) ∧
    (∀ j, st'.boundTextures.get? j = some t.resolved →
      st.emptyTextures.get? j = some t.resolved) := by
  rw [unbindTexture] at h
  obtain ⟨hlen, hemp, huid, htex, -, hout, hin⟩ :=
    unbindLoop_spec st.boundTextures.length 0 st [] st' ops h
  have hsplit : ∀ j, j < st.boundTextures.length ∨ st.boundTextures.length ≤ j :=
    fun j => Nat.lt_or_ge j st.boundTextures.length
  refine ⟨?_, ?_, ?_⟩
  · intro j hjt
    have hjlt : j < st.boundTextures.length := lt_length_of_get?_eq_some hjt
    obtain ⟨e, hd, he, hh, hb, ho1, ho2⟩ := (hin j (Nat.zero_le j) (by omega)).1 hjt
    exact ⟨e, hd, he, hb, hh, ho1, ho2⟩
  · intro j hne
    rcases hsplit j with hlt | hge
    · exact (hin j (Nat.zero_le j) (by omega)).2 hne
    · exact hout j (Or.inr (by omega))
  · intro j hjt
    rcases hsplit j with hlt | hge
    · by_cases hcase : st.boundTextures.get? j = some t.resolved
      · obtain ⟨e, hd, he, hh, hb, -, -⟩ := (hin j (Nat.zero_le j) (by omega)).1 hcase
        rw [hb] at hjt
        rw [he]
        exact congrArg some (Option.some.inj hjt)
      · rw [(hin j (Nat.zero_le j) (by omega)).2 hcase] at hjt
        exact absurd hjt hcase
    · have : st'.boundTextures.get? j = none := by
        rw [List.get?_eq_none]
        omega
      rw [this] at hjt
      exact Option.noConfusion hjt

theorem c8_witness :
    ∃ r, unbindTexture { baseState with boundTextures := [51, 20, 53, 54] }
        ⟨20, none⟩ = some r ∧
      (∃ eid hdl,
        ({ baseState with boundTextures := [51, 20, 53, 54] } :
            WebGLRenderer).emptyTextures.get? 1 = some eid ∧
        r.1.boundTextures.get? 1 = some eid ∧
        (({ baseState with boundTextures := [51, 20, 53, 54] } :
            WebGLRenderer).textures eid).glTextures
          ({ baseState with boundTextures := [51, 20, 53, 54] } :
            WebGLRenderer).contextUID = some hdl ∧
        GLOp.activeTexture 1 ∈ r.2 ∧ GLOp.bindTex eid hdl ∈ r.2) ∧
      r.1.boundTextures.get? 0 =
        ({ baseState with boundTextures := [51, 20, 53, 54] } :
            WebGLRenderer).boundTextures.get? 0 := by
  rcases hr : unbindTexture { baseState with boundTextures := [51, 20, 53, 54] }
      ⟨20, none⟩ with _ | r
  · have hs : (unbindTexture { baseState with boundTextures := [51, 20, 53, 54] }
        ⟨20, none⟩).isSome = true := by decide
    rw [hr] at hs
    simp at hs
  · have hthm := c8_unbindTexture_resets_slots
      { baseState with boundTextures := [51, 20, 53, 54] } ⟨20, none⟩ r.1 r.2
      (by rw [hr])
    exact ⟨r, rfl, hthm.1 1 rfl, hthm.2.1 0 (by decide)⟩

/-! ### Context initialisation and restore (claims C3 and C6) -/

@[simp] theorem initStepState_boundTextures (e t i : Nat) (st : WebGLRenderer) :
    (initStepState e t i st).boundTextures = st.boundTextures.set i t := rfl

@[simp] theorem initStepState_emptyTextures (e t i : Nat) (st : WebGLRenderer) :
    (initStepState e t i st).emptyTextures =
      st.emptyTextures.set i st.nextTextureId := rfl

@[simp] theorem initStepState_nextTextureId (e t i : Nat) (st : WebGLRenderer) :
    (initStepState e t i st).nextTextureId = st.nextTextureId + 1 := rfl

@[simp] theorem initStepState_contextUID (e t i : Nat) (st : WebGLRenderer) :
    (initStepState e t i st).contextUID = st.contextUID := rfl

@[simp] theorem initStepState_contextLost (e t i : Nat) (st : WebGLRenderer) :
    (initStepState e t i st).contextLost = st.contextLost := rfl

@[simp] theorem initStepState_managedTextures (e t i : Nat) (st : WebGLRenderer) :
    (initStepState e t i st).managedTextures = st.managedTextures := rfl

@[simp] theorem initStepState_nextGlHandle (e t i : Nat) (st : WebGLRenderer) :
    (initStepState e t i st).nextGlHandle = st.nextGlHandle := rfl

@[simp] theorem initStepState_maxTextureUnits (e t i : Nat) (st : WebGLRenderer) :
    (initStepState e t i st).maxTextureUnits = st.maxTextureUnits := rfl

theorem initStepState_textures (e t i : Nat) (st : WebGLRenderer) (x : Nat) :
    (initStepState e t i st).textures x =
      if x = st.nextTextureId then
        { touched := 0,
          glTextures := fun c => if c = st.contextUID then some e else none,
          isNew := false }
      else st.textures x := rfl

@[simp] theorem setSlot_boundTextures (st : WebGLRenderer) (i tid : Nat) :
    (setSlot st i tid).boundTextures = st.boundTextures.set i tid := rfl

@[simp] theorem setSlot_emptyTextures (st : WebGLRenderer) (i tid : Nat) :
    (setSlot st i tid).emptyTextures = st.emptyTextures := rfl

@[simp] theorem setSlot_nextTextureId (st : WebGLRenderer) (i tid : Nat) :
    (setSlot st i tid).nextTextureId = st.nextTextureId := rfl

@[simp] theorem setSlot_contextUID (st : WebGLRenderer) (i tid : Nat) :
    (setSlot st i tid).contextUID = st.contextUID := rfl

@[simp] theorem setSlot_textures (st : WebGLRenderer) (i tid : Nat) :
    (setSlot st i tid).textures = st.textures := rfl

theorem touchTexture_textures_ne {st : WebGLRenderer} {tid x : Nat} (h : x ≠ tid) :
    (touchTexture st tid).textures x = st.textures x := by
  simp [touchTexture, h]

@[simp] theorem removeAll_contextUID (st : WebGLRenderer) :
    (removeAll st).contextUID = st.contextUID := rfl

@[simp] theorem removeAll_boundTextures (st : WebGLRenderer) :
    (removeAll st).boundTextures = st.boundTextures := rfl

@[simp] theorem removeAll_emptyTextures (st : WebGLRenderer) :
    (removeAll st).emptyTextures = st.emptyTextures := rfl

@[simp] theorem removeAll_managedTextures (st : WebGLRenderer) :
    (removeAll st).managedTextures = st.managedTextures := rfl

@[simp] theorem removeAll_contextLost (st : WebGLRenderer) :
    (removeAll st).contextLost = st.contextLost := rfl

@[simp] theorem removeAll_maxTextureUnits (st : WebGLRenderer) :
    (removeAll st).maxTextureUnits = st.maxTextureUnits := rfl

theorem removeAll_textures_of_nil {st : WebGLRenderer}
    (h : st.managedTextures = []) : ∀ x, (removeAll st).textures x = st.textures x := by
  intro x
  simp [removeAll, h]

/-- The `bindTexture(null, i)` call inside the `_initContext` loop takes
the direct-bind path: the placeholder is fresh (not resident anywhere), it
has a live handle, and slot `i` currently holds something else. -/
theorem initStep_bind (st : WebGLRenderer) (i eid gh : Nat)
    (heid : st.emptyTextures.get? i = some eid)
    (hnotin : eid ∉ st.boundTextures)
    (hnew : (st.textures eid).isNew = false)
    (hgl : (st.textures eid).glTextures st.contextUID = some gh)
    (hocc : st.boundTextures.get? i ≠ some eid) :
    bindTexture st none (some i) false =
      some (setSlot (touchTexture st eid) i eid,
            [GLOp.activeTexture i, GLOp.bindTex eid gh], i) := by
  rw [bindTexture]
  have hres : resolveTex st none (some i) = some eid := heid
  rw [hres]
  simp only [bindTextureCore]
  rw [show scanSlots eid (touchTexture st eid).boundTextures 0 = none from
    scanSlots_eq_none.mpr (by simpa using hnotin)]
  simp only [Bool.not_false, if_pos]
  simp only [bindAt]
  rw [show ((touchTexture st eid).textures eid).isNew = false from by
    simpa using hnew]
  simp only [Bool.false_eq_true, if_false]
  rw [show ((touchTexture st eid).textures eid).glTextures
      (touchTexture st eid).contextUID = some gh from by simpa using hgl]
  dsimp only
  rw [if_neg (show ¬ (touchTexture st eid).boundTextures.get? i = some eid from by
    simpa using hocc)]
  rfl

/-- A list whose `j`-th entry is `b + j` has no duplicates. -/
theorem nodup_of_get?_arith :
    ∀ (l : List Nat) (b : Nat), (∀ j, j < l.length → l.get? j = some (b + j)) →
      l.Nodup := by
  intro l
  induction l with
  | nil => intro b _; simp
  | cons a rest ih =>
    intro b hget
    have ha : a = b := by
      have := hget 0 (by simp)
      simpa using this
    have hrest : ∀ j, j < rest.length → rest.get? j = some ((b + 1) + j) := by
      intro j hj
      have := hget (j + 1) (by simpa using Nat.succ_lt_succ hj)
      simp only [List.get?_cons_succ] at this
      rw [this]
      congr 1
      omega
    refine List.nodup_cons.mpr ⟨?_, ih (b + 1) hrest⟩
    intro hmem
    obtain ⟨n, hn⟩ := List.get?_of_mem hmem
    have hlt := lt_length_of_get?_eq_some hn
    have := hrest n hlt
    rw [hn] at this
    have := Option.some.inj this
    omega

/-- Induction workhorse for the `_initContext` slot loop: starting the loop
at index `i` with `k` slots to go (fresh ids starting at `b + i`), it
succeeds and afterwards every slot `j` of the two tables holds the fresh
placeholder `b + j`, whose handle for the current context generation is the
shared `emptyGL` texture; texture records below `b` are untouched. -/
theorem initSlots_spec (emptyGL tempObj : Nat) :
    ∀ (k i b : Nat) (st : WebGLRenderer) (ops : List GLOp),
      st.nextTextureId = b + i →
      st.boundTextures.length = i + k →
      st.emptyTextures.length = i + k →
      tempObj < st.nextTextureId →
      (∀ x ∈ st.boundTextures, x < st.nextTextureId) →
      (∀ j, j < i →
        st.boundTextures.get? j = some (b + j) ∧
        st.emptyTextures.get? j = some (b + j) ∧
        (st.textures (b + j)).glTextures st.contextUID = some emptyGL) →
      ∃ st' ops',
        initSlots emptyGL tempObj i k st ops = some (st', ops') ∧
        st'.contextUID = st.contextUID ∧
        st'.contextLost = st.contextLost ∧
        st'.managedTextures = st.managedTextures ∧
        st'.nextGlHandle = st.nextGlHandle ∧
        st'.maxTextureUnits = st.maxTextureUnits ∧
        st'.nextTextureId = b + (i + k) ∧
        st'.boundTextures.length = i + k ∧
        st'.emptyTextures.length = i + k ∧
        (∀ j, j < i + k →
          st'.boundTextures.get? j = some (b + j) ∧
          st'.emptyTextures.get? j = some (b + j) ∧
          (st'.textures (b + j)).glTextures st'.contextUID = some emptyGL) ∧
        (∀ x, x < b → st'.textures x = st.textures x) := by
  intro k
  induction k with
  | zero =>
    intro i b st ops hb hlb hle htmp hbound hpref
    refine ⟨st, ops, by rw [initSlots], rfl, rfl, rfl, rfl, rfl, by omega, by omega,
      by omega, ?_, fun x _ => rfl⟩
    intro j hj
    exact hpref j (by omega)
  | succ k ih =>
    intro i b st ops hb hlb hle htmp hbound hpref
    have hiltb : i < st.boundTextures.length := by omega
    have hilte : i < st.emptyTextures.length := by omega
    set st2 := initStepState emptyGL tempObj i st with hst2
    have hempty2 : st2.emptyTextures.get? i = some st.nextTextureId := by
      rw [hst2, initStepState_emptyTextures]
      exact get?_set_self hilte
    have hnotin2 : st.nextTextureId ∉ st2.boundTextures := by
      rw [hst2, initStepState_boundTextures]
      intro hmem
      rcases mem_set_or hmem with h' | h'
      · omega
      · exact absurd (hbound _ h') (lt_irrefl _)
    have hnew2 : (st2.textures st.nextTextureId).isNew = false := by
      rw [hst2, initStepState_textures]
      simp
    have hgl2 : (st2.textures st.nextTextureId).glTextures st2.contextUID =
        some emptyGL := by
      rw [hst2, initStepState_textures, initStepState_contextUID]
      simp
    have hocc2 : st2.boundTextures.get? i ≠ some st.nextTextureId := by
      rw [hst2, initStepState_boundTextures, get?_set_self hiltb]
      intro hcontr
      have := Option.some.inj hcontr
      omega
    have hbind := initStep_bind st2 i st.nextTextureId emptyGL hempty2 hnotin2
      hnew2 hgl2 hocc2
    set st3 : WebGLRenderer := setSlot (touchTexture st2 st.nextTextureId) i
      st.nextTextureId with hst3
    rw [initSlots]
    try dsimp only
    rw [← hst2, hbind]
    try dsimp only
    -- invariants for the recursive call
    have hb3 : st3.nextTextureId = b + (i + 1) := by
      rw [hst3]
      show st2.nextTextureId = b + (i + 1)
      rw [hst2, initStepState_nextTextureId]
      omega
    have hlb3 : st3.boundTextures.length = (i + 1) + k := by
      rw [hst3]
      show (st2.boundTextures.set i st.nextTextureId).length = (i + 1) + k
      rw [hst2]
      simp only [List.length_set, initStepState_boundTextures]
      omega
    have hle3 : st3.emptyTextures.length = (i + 1) + k := by
      rw [hst3]
      show st2.emptyTextures.length = (i + 1) + k
      rw [hst2]
      simp only [List.length_set, initStepState_emptyTextures]
      omega
    have htmp3 : tempObj < st3.nextTextureId := by
      rw [hb3]
      omega
    have hbound3 : ∀ x ∈ st3.boundTextures, x < st3.nextTextureId := by
      intro x hx
      rw [hb3]
      rw [hst3] at hx
      replace hx : x ∈ st2.boundTextures.set i st.nextTextureId := hx
      rcases mem_set_or hx with h' | h'
      · omega
      · rw [hst2, initStepState_boundTextures] at h'
        rcases mem_set_or h' with h'' | h''
        · omega
        · have := hbound _ h''
          omega
    have hpref3 : ∀ j, j < i + 1 →
        st3.boundTextures.get? j = some (b + j) ∧
        st3.emptyTextures.get? j = some (b + j) ∧
        (st3.textures (b + j)).glTextures st3.contextUID = some emptyGL := by
      intro j hj
      by_cases hji : j = i
      · subst hji
        have hbi : b + j = st.nextTextureId := by omega
        refine ⟨?_, ?_, ?_⟩
        · rw [hst3]
          show (st2.boundTextures.set j st.nextTextureId).get? j = some (b + j)
          rw [get?_set_self (by rw [hst2]; simpa using hiltb), hbi]
        · rw [hst3]
          show st2.emptyTextures.get? j = some (b + j)
          rw [hempty2, hbi]
        · rw [hbi]
          rw [hst3]
          show ((touchTexture st2 st.nextTextureId).textures st.nextTextureId).glTextures
            st2.contextUID = some emptyGL
          rw [touchTexture_glTextures]
          exact hgl2
      · have hji' : j < i := by omega
        obtain ⟨hpb, hpe, hpt⟩ := hpref j hji'
        have hbj : b + j ≠ st.nextTextureId := by omega
        refine ⟨?_, ?_, ?_⟩
        · rw [hst3]
          show (st2.boundTextures.set i st.nextTextureId).get? j = some (b + j)
          rw [get?_set_ne (fun hh => hji hh.symm), hst2, initStepState_boundTextures,
            get?_set_ne (fun hh => hji hh.symm)]
          exact hpb
        · rw [hst3]
          show st2.emptyTextures.get? j = some (b + j)
          rw [hst2, initStepState_emptyTextures,
            get?_set_ne (fun hh => hji hh.symm)]
          exact hpe
        · rw [hst3]
          show ((touchTexture st2 st.nextTextureId).textures (b + j)).glTextures
            st2.contextUID = some emptyGL
          rw [touchTexture_glTextures, hst2, initStepState_textures, if_neg hbj]
          exact hpt
    obtain ⟨st', ops', heq, huid, hlost, hman, hglh, hmaxu, hnid, hlb', hle',
      hslots, hstore⟩ := ih (i + 1) b st3
        (ops ++ [GLOp.activeTexture i, GLOp.bindTex st.nextTextureId emptyGL])
        hb3 hlb3 hle3 htmp3 hbound3 hpref3
    refine ⟨st', ops', heq, ?_, ?_, ?_, ?_, ?_, ?_, by omega, by omega, ?_, ?_⟩
    · rw [huid, hst3]
      rfl
    · rw [hlost, hst3]
      rfl
    · rw [hman, hst3]
      rfl
    · rw [hglh, hst3]
      rfl
    · rw [hmaxu, hst3]
      rfl
    · rw [hnid]
      omega
    · intro j hj
      exact hslots j (by omega)
    · intro x hx
      rw [hstore x hx, hst3]
      show (touchTexture st2 st.nextTextureId).textures x = st.textures x
      rw [touchTexture_textures_ne (by omega), hst2, initStepState_textures,
        if_neg (by omega)]

/-- Behaviour of the whole `_initContext` slot loop from its entry state
(`cl` is the context-lost flag after the restore check). -/
theorem _initContext_inner (st0 : WebGLRenderer) (cl : Bool) :
    ∃ st' ops,
      initSlots st0.nextGlHandle st0.nextTextureId 0 st0.maxTextureUnits
        { st0 with
            contextLost := cl,
            nextGlHandle := st0.nextGlHandle + 1,
            nextTextureId := st0.nextTextureId + 1,
            managedTextures := [],
            textures := fun i =>
              if i = st0.nextTextureId then
                { touched := 0, glTextures := fun _ => none, isNew := false }
              else st0.textures i,
            boundTextures := List.replicate st0.maxTextureUnits st0.nextTextureId,
            emptyTextures := List.replicate st0.maxTextureUnits st0.nextTextureId }
        [] = some (st', ops) ∧
      st'.contextUID = st0.contextUID ∧
      st'.contextLost = cl ∧
      st'.managedTextures = [] ∧
      st'.maxTextureUnits = st0.maxTextureUnits ∧
      st'.boundTextures.length = st0.maxTextureUnits ∧
      st'.emptyTextures.length = st0.maxTextureUnits ∧
      (∀ j, j < st0.maxTextureUnits →
        st'.boundTextures.get? j = some (st0.nextTextureId + 1 + j) ∧
        st'.emptyTextures.get? j = some (st0.nextTextureId + 1 + j) ∧
        (st'.textures (st0.nextTextureId + 1 + j)).glTextures st'.contextUID =
          some st0.nextGlHandle) ∧
      (∀ x, x < st0.nextTextureId → st'.textures x = st0.textures x) ∧
      st'.boundTextures.Nodup := by
  obtain ⟨st', ops', heq, c_uid, c_lost, c_man, c_glh, c_max, c_nid, c_lb, c_le,
    c_slots, c_store⟩ :=
    initSlots_spec st0.nextGlHandle st0.nextTextureId st0.maxTextureUnits 0
      (st0.nextTextureId + 1)
      { st0 with
          contextLost := cl,
          nextGlHandle := st0.nextGlHandle + 1,
          nextTextureId := st0.nextTextureId + 1,
          managedTextures := [],
          textures := fun i =>
            if i = st0.nextTextureId then
              { touched := 0, glTextures := fun _ => none, isNew := false }
            else st0.textures i,
          boundTextures := List.replicate st0.maxTextureUnits st0.nextTextureId,
          emptyTextures := List.replicate st0.maxTextureUnits st0.nextTextureId }
      []
      (by simp)
      (by simp)
      (by simp)
      (by simp)
      (by
        intro x hx
        simp only [List.mem_replicate] at hx
        simp [hx.2])
      (by
        intro j hj
        omega)
  refine ⟨st', ops', heq, by simpa using c_uid, by simpa using c_lost,
    by simpa using c_man, by simpa using c_max, by simpa using c_lb,
    by simpa using c_le, ?_, ?_, ?_⟩
  · intro j hj
    obtain ⟨h1, h2, h3⟩ := c_slots j (by simpa using hj)
    refine ⟨h1, h2, ?_⟩
    simpa using h3
  · intro x hx
    have := c_store x (by omega)
    rw [this]
    simp only
    rw [if_neg (by omega)]
  · apply nodup_of_get?_arith st'.boundTextures (st0.nextTextureId + 1)
    intro j hj
    rw [c_lb] at hj
    exact (c_slots j hj).1

/-- Behaviour of `_initContext`: the context uid is retained, the tables
are rebuilt with fresh placeholders tagged with the current uid and the
shared empty GL texture, the texture manager is reconstructed with an
empty managed set, and all pre-existing texture records (with any handles
they hold) are untouched. -/
theorem _initContext_spec (st0 : WebGLRenderer) :
    ∃ st' ops, _initContext st0 = some (st', ops) ∧
      st'.contextUID = st0.contextUID ∧
      st'.contextLost = (if st0.contextLost && st0.loseContextExt then false
        else st0.contextLost) ∧
      st'.managedTextures = [] ∧
      st'.maxTextureUnits = st0.maxTextureUnits ∧
      st'.boundTextures.length = st0.maxTextureUnits ∧
      st'.emptyTextures.length = st0.maxTextureUnits ∧
      (∀ j, j < st0.maxTextureUnits →
        st'.boundTextures.get? j = some (st0.nextTextureId + 1 + j) ∧
        st'.emptyTextures.get? j = some (st0.nextTextureId + 1 + j) ∧
        (st'.textures (st0.nextTextureId + 1 + j)).glTextures st'.contextUID =
          some st0.nextGlHandle) ∧
      (∀ x, x < st0.nextTextureId → st'.textures x = st0.textures x) ∧
      st'.boundTextures.Nodup := by
  by_cases hc : (st0.contextLost && st0.loseContextExt) = true
  · obtain ⟨st', ops, heq, rest⟩ := _initContext_inner st0 false
    have hunf : _initContext st0 =
        initSlots st0.nextGlHandle st0.nextTextureId 0 st0.maxTextureUnits
          { st0 with
              contextLost := false,
              nextGlHandle := st0.nextGlHandle + 1,
              nextTextureId := st0.nextTextureId + 1,
              managedTextures := [],
              textures := fun i =>
                if i = st0.nextTextureId then
                  { touched := 0, glTextures := fun _ => none, isNew := false }
                else st0.textures i,
              boundTextures := List.replicate st0.maxTextureUnits st0.nextTextureId,
              emptyTextures := List.replicate st0.maxTextureUnits st0.nextTextureId }
          [] := by
      unfold _initContext
      rw [if_pos hc]
    refine ⟨st', ops, by rw [hunf]; exact heq, ?_⟩
    rw [if_pos hc]
    exact rest
  · obtain ⟨st', ops, heq, rest⟩ := _initContext_inner st0 st0.contextLost
    have hunf : _initContext st0 =
        initSlots st0.nextGlHandle st0.nextTextureId 0 st0.maxTextureUnits
          { st0 with
              contextLost := st0.contextLost,
              nextGlHandle := st0.nextGlHandle + 1,
              nextTextureId := st0.nextTextureId + 1,
              managedTextures := [],
              textures := fun i =>
                if i = st0.nextTextureId then
                  { touched := 0, glTextures := fun _ => none, isNew := false }
                else st0.textures i,
              boundTextures := List.replicate st0.maxTextureUnits st0.nextTextureId,
              emptyTextures := List.replicate st0.maxTextureUnits st0.nextTextureId }
          [] := by
      unfold _initContext
      rw [if_neg hc]
    refine ⟨st', ops, by rw [hunf]; exact heq, ?_⟩
    rw [if_neg hc]
    exact rest

/-- Claim C3 fails on the code: after a loss-and-restore cycle the context
identifier is *not* reissued (`handleContextRestored` never touches
`this.CONTEXT_UID`), and the stale GPU handle of a texture managed before
the loss survives under that same identifier, because `removeAll` is
called on the texture manager freshly constructed inside `_initContext`,
whose managed set is empty.  Concretely, restoring `c3State` (uid 7,
texture 30 holding stale handle 99) leaves the uid at 7 and the handle 99
still reachable. -/
theorem c3_counterexample :
    c3State.contextUID = 7 ∧
    (handleContextRestored c3State).map
      (fun r => (r.1.contextUID, (r.1.textures 30).glTextures 7)) =
      some (7, some 99) :=
  ⟨rfl, rfl⟩

/-- Claim C3 as amended: after `handleContextRestored` the renderer
retains its previous context identifier; every texture slot is rebound to
a fresh placeholder texture whose GPU handle is tagged with that (current)
identifier; the texture manager is reconstructed with an empty managed
set, so the subsequent `removeAll` drops nothing and the texture records
that existed before the loss — including their per-context handle maps —
are left untouched. -/
theorem c3_restore_retains_uid (st : WebGLRenderer) :
    ∃ st' ops, handleContextRestored st = some (st', ops) ∧
      st'.contextUID = st.contextUID ∧
      (st.contextLost = true → st.loseContextExt = true →
        st'.contextLost = false) ∧
      st'.boundTextures.length = st.maxTextureUnits ∧
      st'.emptyTextures.length = st.maxTextureUnits ∧
      (∀ j, j < st.maxTextureUnits →
        ∃ eid, st'.boundTextures.get? j = some eid ∧
          st'.emptyTextures.get? j = some eid ∧
          (st'.textures eid).glTextures st'.contextUID = some st.nextGlHandle) ∧
      (∀ x, x < st.nextTextureId → st'.textures x = st.textures x) ∧
      st'.managedTextures = [] := by
  obtain ⟨st1, ops, heq, huid, hlost, hman, hmax, hlb, hle, hslots, hstore, hnodup⟩ :=
    _initContext_spec st
  refine ⟨removeAll st1, ops, ?_, ?_, ?_, ?_, ?_, ?_, ?_, ?_⟩
  · rw [handleContextRestored, heq]
  · rw [removeAll_contextUID, huid]
  · intro h1 h2
    rw [removeAll_contextLost, hlost]
    simp [h1, h2]
  · rw [removeAll_boundTextures, hlb]
  · rw [removeAll_emptyTextures, hle]
  · intro j hj
    obtain ⟨h1, h2, h3⟩ := hslots j hj
    refine ⟨st.nextTextureId + 1 + j, ?_, ?_, ?_⟩
    · rw [removeAll_boundTextures]
      exact h1
    · rw [removeAll_emptyTextures]
      exact h2
    · rw [removeAll_textures_of_nil hman, removeAll_contextUID]
      exact h3
  · intro x hx
    rw [removeAll_textures_of_nil hman]
    exact hstore x hx
  · rw [removeAll_managedTextures, hman]

theorem c3_witness :
    ∃ st' ops, handleContextRestored c3State = some (st', ops) ∧
      st'.contextUID = c3State.contextUID ∧
      (c3State.contextLost = true → c3State.loseContextExt = true →
        st'.contextLost = false) ∧
      st'.boundTextures.length = c3State.maxTextureUnits ∧
      st'.emptyTextures.length = c3State.maxTextureUnits ∧
      (∀ j, j < c3State.maxTextureUnits →
        ∃ eid, st'.boundTextures.get? j = some eid ∧
          st'.emptyTextures.get? j = some eid ∧
          (st'.textures eid).glTextures st'.contextUID =
            some c3State.nextGlHandle) ∧
      (∀ x, x < c3State.nextTextureId → st'.textures x = c3State.textures x) ∧
      st'.managedTextures = [] :=
  c3_restore_retains_uid c3State

/-- Claim C6: starting from the initialised slot table (which holds
pairwise-distinct placeholders), after any sequence of non-forced
`bindTexture` calls no two distinct slots of the bound-texture table
reference the same logical texture. -/
theorem c6_slot_exclusivity :
    (∀ (st0 st' : WebGLRenderer) (ops : List GLOp),
      _initContext st0 = some (st', ops) → st'.boundTextures.Nodup) ∧
    (∀ (st : WebGLRenderer) (reqs : List (Option TexRef × Option Nat))
        (st' : WebGLRenderer) (ops : List GLOp),
      st.boundTextures.Nodup → applyBinds st reqs = some (st', ops) →
      st'.boundTextures.Nodup) := by
  constructor
  · intro st0 st' ops h
    obtain ⟨st1, ops1, heq, -, -, -, -, -, -, -, -, hnodup⟩ := _initContext_spec st0
    rw [heq] at h
    simp only [Option.some.injEq, Prod.mk.injEq] at h
    obtain ⟨rfl, rfl⟩ := h
    exact hnodup
  · intro st reqs
    induction reqs generalizing st with
    | nil =>
      intro st' ops hnd h
      rw [applyBinds] at h
      simp only [Option.some.injEq, Prod.mk.injEq] at h
      obtain ⟨rfl, rfl⟩ := h
      exact hnd
    | cons r rest ih =>
      intro st' ops hnd h
      obtain ⟨t, loc⟩ := r
      rw [applyBinds] at h
      rcases hb : bindTexture st t loc false with _ | ⟨st1, ops1, j⟩ <;> rw [hb] at h
      · simp at h
      · dsimp only at h
        rcases hr : applyBinds st1 rest with _ | ⟨st2, ops2⟩ <;> rw [hr] at h
        · simp at h
        · dsimp only at h
          simp only [Option.some.injEq, Prod.mk.injEq] at h
          obtain ⟨rfl, rfl⟩ := h
          have hnd1 : st1.boundTextures.Nodup := by
            rcases t with _ | t
            · rw [bindTexture] at hb
              rcases hres : resolveTex st none loc with _ | tid <;> rw [hres] at hb
              · simp at hb
              · exact (bindCore_nf_spec hb).2.2.2.2.2.2.2.2.1 hnd
            · exact (bind_nf_spec hb).2.2.2.2.2.2.2.2.1 hnd
          exact ih st1 st2 ops2 hnd1 hr

theorem c6_witness :
    (∃ r, _initContext baseState = some r ∧ r.1.boundTextures.Nodup) ∧
    (baseState.boundTextures.Nodup ∧
      ∃ r, applyBinds baseState
          [(some ⟨10, none⟩, none), (some ⟨11, none⟩, none), (some ⟨10, none⟩, none)] =
          some r ∧ r.1.boundTextures.Nodup) := by
  constructor
  · rcases hr : _initContext baseState with _ | r
    · have hs : (_initContext baseState).isSome = true := by decide
      rw [hr] at hs
      simp at hs
    · exact ⟨r, rfl, c6_slot_exclusivity.1 baseState r.1 r.2 (by rw [hr])⟩
  · refine ⟨by decide, ?_⟩
    rcases hr : applyBinds baseState
        [(some ⟨10, none⟩, none), (some ⟨11, none⟩, none), (some ⟨10, none⟩, none)]
        with _ | r
    · have hs : (applyBinds baseState
          [(some ⟨10, none⟩, none), (some ⟨11, none⟩, none),
            (some ⟨10, none⟩, none)]).isSome = true := by decide
      rw [hr] at hs
      simp at hs
    · exact ⟨r, rfl, c6_slot_exclusivity.2 baseState
        [(some ⟨10, none⟩, none), (some ⟨11, none⟩, none), (some ⟨10, none⟩, none)]
        r.1 r.2 (by decide) (by rw [hr])⟩

/-! ### Claim C7: round-robin slot choice -/

/-- A non-forced bind of a texture that is not resident anywhere, with no
suggested slot, wraps the counter and chooses slot
`length - counter - 1`. -/
theorem bind_fresh_loc {st : WebGLRenderer} {t : TexRef} {st' : WebGLRenderer}
    {ops : List GLOp} {loc : Nat}
    (hnotin : t.resolved ∉ st.boundTextures)
    (h : bindTexture st (some t) none false = some (st', ops, loc)) :
    loc = st.boundTextures.length - ((st.nextTextureLocation + 1) %
      st.boundTextures.length) - 1 ∧
    st'.nextTextureLocation =
      (st.nextTextureLocation + 1) % st.boundTextures.length ∧
    st'.boundTextures = st.boundTextures.set loc t.resolved ∧
    (∀ x, (st'.textures x).isNew = (st.textures x).isNew) := by
  rw [bindTexture] at h
  dsimp only [resolveTex] at h
  simp only [bindTextureCore] at h
  rw [show scanSlots t.resolved (touchTexture st t.resolved).boundTextures 0 =
    none from scanSlots_eq_none.mpr (by simpa using hnotin)] at h
  simp only [Bool.not_false, if_pos, touchTexture_boundTextures,
    touchTexture_nextTextureLocation] at h
  obtain ⟨hi, hlen, hloc, hemp, huid, hnewp, hmem, hprop, hcnt, hcnt', hnd, hset⟩ :=
    bindAt_spec h
  refine ⟨by simpa using hi, by simpa using hloc, ?_, fun x => by simpa using hnewp x⟩
  rw [hset (by simpa using hnotin), ← hi]

theorem bindAt_total {st : WebGLRenderer} {tid loc : Nat}
    (hnew : (st.textures tid).isNew = false) :
    ∃ r, bindAt st tid loc = some r := by
  simp only [bindAt]
  rw [hnew]
  simp only [Bool.false_eq_true, if_false]
  rcases hgl : (st.textures tid).glTextures st.contextUID with _ | gh
  · exact ⟨_, rfl⟩
  · dsimp only
    by_cases hocc : st.boundTextures.get? loc = some tid
    · rw [if_pos hocc]
      exact ⟨_, rfl⟩
    · rw [if_neg hocc]
      exact ⟨_, rfl⟩

theorem bind_total {st : WebGLRenderer} {t : TexRef} {loc : Option Nat}
    (hnew : (st.textures t.resolved).isNew = false) :
    ∃ r, bindTexture st (some t) loc false = some r := by
  rw [bindTexture]
  dsimp only [resolveTex]
  simp only [bindTextureCore]
  simp only [Bool.not_false, if_pos]
  rcases hscan : scanSlots t.resolved (touchTexture st t.resolved).boundTextures 0
      with _ | j
  · dsimp only
    rcases loc with _ | loc2
    · dsimp only
      exact bindAt_total (by simpa using hnew)
    · dsimp only
      exact bindAt_total (by simpa using hnew)
  · exact ⟨_, rfl⟩

/-- The slot indices chosen by a run of fresh, pairwise-distinct,
nowhere-resident textures through non-forced `bindTexture` calls with no
suggested slots: call `k` (zero-based) picks
`length - ((counter + 1 + k) % length) - 1`. -/
theorem bindFresh_spec :
    ∀ (ts : List Nat) (st st' : WebGLRenderer) (locs : List Nat),
      ts.Nodup →
      (∀ x ∈ ts, x ∉ st.boundTextures) →
      bindFresh st ts = some (st', locs) →
      locs = (List.range ts.length).map
        (fun k => st.boundTextures.length -
          ((st.nextTextureLocation + 1 + k) % st.boundTextures.length) - 1) := by
  intro ts
  induction ts with
  | nil =>
    intro st st' locs _ _ h
    rw [bindFresh] at h
    simp only [Option.some.injEq, Prod.mk.injEq] at h
    obtain ⟨rfl, rfl⟩ := h
    simp
  | cons t rest ih =>
    intro st st' locs hnd hfresh h
    rw [bindFresh] at h
    rcases hb : bindTexture st (some ⟨t, none⟩) none false with _ | ⟨st1, ops1, loc⟩ <;>
      rw [hb] at h
    · simp at h
    · dsimp only at h
      rcases hr : bindFresh st1 rest with _ | ⟨st2, locs2⟩ <;> rw [hr] at h
      · simp at h
      · dsimp only at h
        simp only [Option.some.injEq, Prod.mk.injEq] at h
        obtain ⟨rfl, rfl⟩ := h
        have htres : TexRef.resolved ⟨t, none⟩ = t := rfl
        have hnotin : TexRef.resolved ⟨t, none⟩ ∉ st.boundTextures := by
          rw [htres]
          exact hfresh t (by simp)
        obtain ⟨hloc, hcounter, hbound, -⟩ := bind_fresh_loc hnotin hb
        have hlen1 : st1.boundTextures.length = st.boundTextures.length := by
          rw [hbound]
          simp
        have hfresh1 : ∀ x ∈ rest, x ∉ st1.boundTextures := by
          intro x hx hmem
          rw [hbound] at hmem
          rcases mem_set_or hmem with h' | h'
          · rw [htres] at h'
            rcases List.nodup_cons.mp hnd with ⟨hth, -⟩
            exact hth (h' ▸ hx)
          · exact hfresh x (List.mem_cons_of_mem _ hx) h'
        have := ih st1 st2 locs2 (List.Nodup.of_cons hnd) hfresh1 hr
        rw [this]
        simp only [List.length_cons, List.range_succ_eq_map, List.map_cons,
          List.map_map, List.cons.injEq]
        constructor
        · rw [hloc]
        · apply List.map_congr_left
          intro k _
          simp only [Function.comp]
          rw [hcounter, hlen1]
          congr 2
          rw [Nat.add_assoc, Nat.mod_add_mod]
          congr 1
          omega

/-- Every `bindTexture` call in a `bindFresh` run succeeds when none of
the textures carries `_newTexture`. -/
theorem bindFresh_total :
    ∀ (ts : List Nat) (st : WebGLRenderer),
      (∀ x ∈ ts, (st.textures x).isNew = false) →
      ∃ r, bindFresh st ts = some r := by
  intro ts
  induction ts with
  | nil =>
    intro st _
    exact ⟨_, rfl⟩
  | cons t rest ih =>
    intro st hnew
    obtain ⟨⟨st1, ops1, loc⟩, hb⟩ :=
      @bind_total st ⟨t, none⟩ none (hnew t (by simp))
    have hnew1 : ∀ x ∈ rest, (st1.textures x).isNew = false := by
      intro x hx
      rw [(bind_nf_spec hb).2.2.2.1 x]
      exact hnew x (List.mem_cons_of_mem _ hx)
    obtain ⟨⟨st2, locs2⟩, hr⟩ := ih st1 hnew1
    refine ⟨(st2, loc :: locs2), ?_⟩
    rw [bindFresh, hb]
    dsimp only
    rw [hr]

/-- Claim C7: for a non-forced bind of a texture not resident in any slot
and with no suggested slot, the chosen index is
`length - counter - 1` with `counter` the internal next-location counter
after its increment modulo `length`, hence always within
`[0, length - 1]`; and a run of such calls on pairwise-distinct fresh
textures cycles through the slots: the chosen indices are pairwise
distinct while the run is no longer than the table, and a run of exactly
`length` calls visits every slot. -/
theorem c7_round_robin_slot_choice :
    (∀ (st : WebGLRenderer) (t : TexRef) (st' : WebGLRenderer) (ops : List GLOp)
        (loc : Nat),
      t.resolved ∉ st.boundTextures →
      bindTexture st (some t) none false = some (st', ops, loc) →
      loc = st.boundTextures.length - ((st.nextTextureLocation + 1) %
        st.boundTextures.length) - 1 ∧
      st'.nextTextureLocation =
        (st.nextTextureLocation + 1) % st.boundTextures.length ∧
      (0 < st.boundTextures.length → loc < st.boundTextures.length)) ∧
    (∀ (st : WebGLRenderer) (ts : List Nat) (st' : WebGLRenderer)
        (locs : List Nat),
      0 < st.boundTextures.length →
      ts.Nodup →
      (∀ x ∈ ts, x ∉ st.boundTextures) →
      bindFresh st ts = some (st', locs) →
      (∀ l ∈ locs, l < st.boundTextures.length) ∧
      (ts.length ≤ st.boundTextures.length → locs.Nodup) ∧
      (ts.length = st.boundTextures.length →
        ∀ s, s < st.boundTextures.length → s ∈ locs)) := by
  constructor
  · intro st t st' ops loc hnotin h
    obtain ⟨hloc, hcounter, -, -⟩ := bind_fresh_loc hnotin h
    refine ⟨hloc, hcounter, ?_⟩
    intro hlen
    have := Nat.mod_lt (st.nextTextureLocation + 1) hlen
    omega
  · intro st ts st' locs hlen hnd hfresh h
    have hform := bindFresh_spec ts st st' locs hnd hfresh h
    have hmodlt : ∀ k : Nat,
        (st.nextTextureLocation + 1 + k) % st.boundTextures.length <
          st.boundTextures.length :=
      fun k => Nat.mod_lt _ hlen
    refine ⟨?_, ?_, ?_⟩
    · intro l hl
      rw [hform] at hl
      obtain ⟨k, -, rfl⟩ := List.mem_map.mp hl
      have := hmodlt k
      omega
    · intro hle
      rw [hform]
      apply List.Nodup.map_on ?_ (List.nodup_range _)
      intro j hj k hk heq
      rw [List.mem_range] at hj hk
      have hj' : j < st.boundTextures.length := by omega
      have hk' : k < st.boundTextures.length := by omega
      have hmodeq : (st.nextTextureLocation + 1 + j) % st.boundTextures.length =
          (st.nextTextureLocation + 1 + k) % st.boundTextures.length := by
        have h1 := hmodlt j
        have h2 := hmodlt k
        omega
      have : Nat.ModEq st.boundTextures.length j k := by
        have hmeq : Nat.ModEq st.boundTextures.length
            (st.nextTextureLocation + 1 + j) (st.nextTextureLocation + 1 + k) :=
          hmodeq
        exact Nat.ModEq.add_left_cancel' (st.nextTextureLocation + 1) hmeq
      have := this
      unfold Nat.ModEq at this
      rw [Nat.mod_eq_of_lt hj', Nat.mod_eq_of_lt hk'] at this
      exact this
    · intro hlength s hs
      have hnodupl : locs.Nodup := by
        apply (?_ : ts.length ≤ st.boundTextures.length → locs.Nodup)
        · omega
        · intro hle
          rw [hform]
          apply List.Nodup.map_on ?_ (List.nodup_range _)
          intro j hj k hk heq
          rw [List.mem_range] at hj hk
          have hj' : j < st.boundTextures.length := by omega
          have hk' : k < st.boundTextures.length := by omega
          have hmodeq : (st.nextTextureLocation + 1 + j) % st.boundTextures.length =
              (st.nextTextureLocation + 1 + k) % st.boundTextures.length := by
            have h1 := hmodlt j
            have h2 := hmodlt k
            omega
          have hmeq : Nat.ModEq st.boundTextures.length
              (st.nextTextureLocation + 1 + j) (st.nextTextureLocation + 1 + k) :=
            hmodeq
          have hjk := Nat.ModEq.add_left_cancel' (st.nextTextureLocation + 1) hmeq
          unfold Nat.ModEq at hjk
          rw [Nat.mod_eq_of_lt hj', Nat.mod_eq_of_lt hk'] at hjk
          exact hjk
      have hlenl : locs.length = st.boundTextures.length := by
        rw [hform]
        simp [hlength]
      have hsub : locs.toFinset ⊆ Finset.range st.boundTextures.length := by
        intro x hx
        rw [Finset.mem_range]
        have hx' := List.mem_toFinset.mp hx
        rw [hform] at hx'
        obtain ⟨k, -, rfl⟩ := List.mem_map.mp hx'
        have := hmodlt k
        omega
      have hcard : locs.toFinset.card = st.boundTextures.length := by
        rw [List.toFinset_card_of_nodup hnodupl, hlenl]
      have heqset : locs.toFinset = Finset.range st.boundTextures.length :=
        Finset.eq_of_subset_of_card_le hsub (by
          rw [hcard, Finset.card_range])
      have : s ∈ locs.toFinset := by
        rw [heqset, Finset.mem_range]
        exact hs
      exact List.mem_toFinset.mp this

theorem c7_witness :
    ((10 : Nat) ∉ baseState.boundTextures ∧
      ∃ r, bindTexture baseState (some ⟨10, none⟩) none false = some r ∧
        r.2.2 = baseState.boundTextures.length -
          ((baseState.nextTextureLocation + 1) % baseState.boundTextures.length) - 1 ∧
        r.2.2 < baseState.boundTextures.length) ∧
    (∃ r, bindFresh baseState [10, 11, 12, 13] = some r ∧
      (∀ l ∈ r.2, l < baseState.boundTextures.length) ∧ r.2.Nodup ∧
      (∀ s, s < baseState.boundTextures.length → s ∈ r.2)) := by
  constructor
  · refine ⟨by decide, ?_⟩
    rcases hr : bindTexture baseState (some ⟨10, none⟩) none false with _ | r
    · have hs : (bindTexture baseState (some ⟨10, none⟩) none false).isSome = true := by
        decide
      rw [hr] at hs
      simp at hs
    · obtain ⟨h1, h2, h3⟩ := c7_round_robin_slot_choice.1 baseState ⟨10, none⟩
        r.1 r.2.1 r.2.2 (by decide) (by rw [hr])
      exact ⟨r, rfl, h1, h3 (by decide)⟩
  · rcases hr : bindFresh baseState [10, 11, 12, 13] with _ | r
    · have hs : (bindFresh baseState [10, 11, 12, 13]).isSome = true := by decide
      rw [hr] at hs
      simp at hs
    · obtain ⟨h1, h2, h3⟩ := c7_round_robin_slot_choice.2 baseState [10, 11, 12, 13]
        r.1 r.2 (by decide) (by decide) (by decide) (by rw [hr])
      exact ⟨r, rfl, h1, h2 (by decide), h3 (by decide)⟩

end Pixi
